import Mathlib

/-! Musical instrument catalogue (`main.cpp`).

A shallow embedding of the instrument hierarchy (`MusicalInstrument`,
`StringInstrument`, `BrassInstrument`), of the type-inspecting helper
`modifyInstrument`, and of `main`.

Conventions of the embedding:

* `std::cout` is an explicit state: the text written so far. Every printing
  function takes the stream and returns the stream after its writes.
* `std::string` is `String`; `int` is `Int` (no arithmetic is ever performed
  on it, the value is only stored and printed), with `isInt` for the range of
  the machine type.
* A `MusicalInstrument*` is an `Option Instrument`: `none` is the null pointer,
  `some i` points to an object whose dynamic type is the constructor of `i`.
* `std::vector<std::unique_ptr<MusicalInstrument>>` is a `List Instrument`
  (every slot is filled by `std::make_unique`, hence never null).
-/

namespace Rk2

/-! ## The output stream -/

/-- The characters written to `std::cout` so far. -/
abbrev OStream := String

/-- Insertion of a string: `os << s`. -/
def OStream.put (os : OStream) (s : String) : OStream := os ++ s

/-- Insertion of an `int`: `os << n`, in decimal, with a leading `-` when negative. -/
def OStream.putInt (os : OStream) (n : Int) : OStream := os ++ toString n

/-- The manipulator `std::endl`: writes a newline (the flush leaves the text unchanged). -/
def OStream.endl (os : OStream) : OStream := os ++ "\n"

/-! ## The class hierarchy -/

/-- Data members of the base class. -/
structure MusicalInstrument where
  name : String
  material : String
deriving DecidableEq, Repr

/-- Data members of `StringInstrument`: the base part and `int stringCount`. -/
structure StringInstrument extends MusicalInstrument where
  stringCount : Int
deriving DecidableEq, Repr

/-- Data members of `BrassInstrument`: the base part and `std::string brassType`. -/
structure BrassInstrument extends MusicalInstrument where
  brassType : String
deriving DecidableEq, Repr

/-- Least value of the 32-bit `int`. -/
def INT_MIN : Int := -2147483648

/-- Greatest value of the 32-bit `int`. -/
def INT_MAX : Int := 2147483647

/-- The values an `int` argument can take. -/
def isInt (n : Int) : Prop := INT_MIN ≤ n ∧ n ≤ INT_MAX

instance (n : Int) : Decidable (isInt n) := by
  unfold isInt; infer_instance

/-- Constructor `MusicalInstrument(name, material)`. -/
def MusicalInstrument.new (name material : String) : MusicalInstrument :=
  { name := name, material := material }

/-- Constructor `StringInstrument(name, material, stringCount)`:
the member initialisers store the arguments, nothing is checked. -/
def StringInstrument.new (name material : String) (stringCount : Int) : StringInstrument :=
  { toMusicalInstrument := MusicalInstrument.new name material, stringCount := stringCount }

/-- Constructor `BrassInstrument(name, material, brassType)`. -/
def BrassInstrument.new (name material brassType : String) : BrassInstrument :=
  { toMusicalInstrument := MusicalInstrument.new name material, brassType := brassType }

/-- The method `MusicalInstrument::display`. -/
def MusicalInstrument.display (self : MusicalInstrument) (os : OStream) : OStream :=
  ((((os.put "Instrument: ").put self.name).put "\nMaterial: ").put self.material).endl

/-- The override `StringInstrument::display`. -/
def StringInstrument.display (self : StringInstrument) (os : OStream) : OStream :=
  ((((((os.put "String Instrument: ").put self.name).put "\nMaterial: ").put self.material).put
    "\nNumber of strings: ").putInt self.stringCount).endl

/-- The override `BrassInstrument::display`. -/
def BrassInstrument.display (self : BrassInstrument) (os : OStream) : OStream :=
  ((((((os.put "Brass Instrument: ").put self.name).put "\nMaterial: ").put self.material).put
    "\nBrass type: ").put self.brassType).endl

/-- An object reachable through a `MusicalInstrument*`, tagged with its dynamic type. -/
inductive Instrument where
  | base (m : MusicalInstrument)
  | string (s : StringInstrument)
  | brass (b : BrassInstrument)
deriving DecidableEq, Repr

/-- The virtual call `instrument->display()`: dispatch on the dynamic type. -/
def Instrument.display : Instrument → OStream → OStream
  | .base m => m.display
  | .string s => s.display
  | .brass b => b.display

/-- The cast `dynamic_cast<StringInstrument*>(p)`: null for a null pointer and for
an object that is not a `StringInstrument`. -/
def dynamicCastString : Option Instrument → Option StringInstrument
  | some (.string s) => some s
  | _ => none

/-- The cast `dynamic_cast<BrassInstrument*>(p)`. -/
def dynamicCastBrass : Option Instrument → Option BrassInstrument
  | some (.brass b) => some b
  | _ => none

/-- The function `modifyInstrument`. -/
def modifyInstrument (instrument : Option Instrument) (os : OStream) : OStream :=
  match dynamicCastString instrument with
  | some stringInstrument => stringInstrument.display os
  | none =>
    match dynamicCastBrass instrument with
    | some brassInstrument => brassInstrument.display os
    | none => os.put "Unknown instrument type.\n"

/-! ## The catalogue: the vector of `main` -/

/-- The call `v.push_back(x)`. -/
def push_back (v : List Instrument) (x : Instrument) : List Instrument := v ++ [x]

/-- Appending a sequence of instruments, one `push_back` each, in order. -/
def appendAll (v : List Instrument) (xs : List Instrument) : List Instrument :=
  xs.foldl push_back v

/-- Body of the range-based loop of `main`: `instrument->display(); std::cout << std::endl;`. -/
def loopBody (os : OStream) (instrument : Instrument) : OStream :=
  (instrument.display os).endl

/-- The range-based loop of `main` over the whole vector, first slot first. -/
def traverse (instruments : List Instrument) (os : OStream) : OStream :=
  instruments.foldl loopBody os

/-- What the element access of `main` yields: a pointer to an element, or nothing the
language defines. -/
inductive Access where
  | element (p : Option Instrument)
  | undefinedBehaviour
deriving DecidableEq, Repr

/-- The expression `instruments[index].get()`, which `main` evaluates at index 0.
The index has the unsigned type `size_type`. Inside `[0, size)` `operator[]` yields the
slot, whose `get()` is the pointer to the owned object; it performs no bounds check, and
outside that range the language defines no behaviour. -/
def subscriptGet (instruments : List Instrument) (index : Nat) : Access :=
  match instruments[index]? with
  | some i => .element (some i)
  | none => .undefinedBehaviour

/-- The function `main`, started on a given state of `std::cout`: the final text
and the exit code, or `none` if an element access were undefined. -/
def main (os : OStream) : Option (OStream × Int) :=
  let instruments : List Instrument := []
  let instruments := push_back instruments (.string (StringInstrument.new "Guitar" "Wood" 6))
  let instruments := push_back instruments (.string (StringInstrument.new "Violin" "Wood" 4))
  let instruments :=
    push_back instruments (.brass (BrassInstrument.new "Trumpet" "Brass" "Yellow Brass"))
  let instruments :=
    push_back instruments (.brass (BrassInstrument.new "Trombone" "Brass" "Red Brass"))
  let os := traverse instruments os
  match subscriptGet instruments 0 with
  | .element p => some (modifyInstrument p os, 0)
  | _ => none

/-! ## Vocabulary of the statements -/

/-- The text an action writes when started on an empty stream. -/
def written (action : OStream → OStream) : String := action ""

/-- Holds when `part` occurs in `text` as a contiguous run of characters. -/
def occursIn (part text : String) : Prop := part.data <:+: text.data

instance (part text : String) : Decidable (occursIn part text) := by
  unfold occursIn; infer_instance

/-- The four newline-terminated lines `l1`, `l2`, `l3`, `l4`, one after the other. -/
def fourLines (l1 l2 l3 l4 : String) : String :=
  l1 ++ "\n" ++ l2 ++ "\n" ++ l3 ++ "\n" ++ l4 ++ "\n"

/-- The number a run of decimal digit characters denotes, most significant digit first. -/
def digitsValue (cs : List Char) : Nat :=
  cs.foldl (fun acc c => 10 * acc + (c.toNat - '0'.toNat)) 0

/-- The integer a decimal numeral denotes: an optional leading `-`, then digits. -/
def decimalValue (s : String) : Int :=
  if s.data.head? = some '-' then -(digitsValue s.data.tail : Int) else (digitsValue s.data : Int)

/-- A line body: a text without newline character. -/
def isLine (s : String) : Prop := '\n' ∉ s.data

instance (s : String) : Decidable (isLine s) := by
  unfold isLine; infer_instance

/-! ## Auxiliary facts -/

theorem base_display_eq (m : MusicalInstrument) (os : OStream) :
    m.display os = os ++ ("Instrument: " ++ m.name ++ "\nMaterial: " ++ m.material ++ "\n") := by
  simp [MusicalInstrument.display, OStream.put, OStream.endl, String.append_assoc]

theorem string_display_eq (s : StringInstrument) (os : OStream) :
    s.display os = os ++ ("String Instrument: " ++ s.name ++ "\nMaterial: " ++ s.material
      ++ "\nNumber of strings: " ++ toString s.stringCount ++ "\n") := by
  simp [StringInstrument.display, OStream.put, OStream.putInt, OStream.endl, String.append_assoc]

theorem brass_display_eq (b : BrassInstrument) (os : OStream) :
    b.display os = os ++ ("Brass Instrument: " ++ b.name ++ "\nMaterial: " ++ b.material
      ++ "\nBrass type: " ++ b.brassType ++ "\n") := by
  simp [BrassInstrument.display, OStream.put, OStream.endl, String.append_assoc]

theorem virtual_display_eq (i : Instrument) (os : OStream) :
    i.display os = os ++ written i.display := by
  cases i with
  | base m => simp [Instrument.display, written, base_display_eq]
  | string s => simp [Instrument.display, written, string_display_eq]
  | brass b => simp [Instrument.display, written, brass_display_eq]

theorem written_string (s : StringInstrument) :
    written s.display = "String Instrument: " ++ s.name ++ "\nMaterial: " ++ s.material
      ++ "\nNumber of strings: " ++ toString s.stringCount ++ "\n" := by
  simp [written, string_display_eq]

theorem written_brass (b : BrassInstrument) :
    written b.display = "Brass Instrument: " ++ b.name ++ "\nMaterial: " ++ b.material
      ++ "\nBrass type: " ++ b.brassType ++ "\n" := by
  simp [written, brass_display_eq]

theorem join_cons_eq (s : String) (ss : List String) :
    String.join (s :: ss) = s ++ String.join ss := by
  apply String.ext
  simp [String.join_eq]

theorem appendAll_eq (v xs : List Instrument) : appendAll v xs = v ++ xs := by
  induction xs generalizing v with
  | nil => simp [appendAll]
  | cons x xs ih =>
    have h := ih (push_back v x)
    simp only [appendAll, List.foldl_cons] at h ⊢
    rw [h]
    simp [push_back]

theorem traverse_eq (xs : List Instrument) (os : OStream) :
    traverse xs os = os ++ String.join (xs.map fun i => written i.display ++ "\n") := by
  induction xs generalizing os with
  | nil => simp [traverse, String.join]
  | cons x xs ih =>
    have h := ih (loopBody os x)
    simp only [traverse, List.foldl_cons] at h ⊢
    rw [h, List.map_cons, join_cons_eq, loopBody, OStream.endl, virtual_display_eq x os]
    simp [String.append_assoc]

theorem subscriptGet_in_range (xs : List Instrument) (index : Nat) (h : index < xs.length) :
    subscriptGet (appendAll [] xs) index = Access.element (some (xs.get ⟨index, h⟩)) := by
  rw [appendAll_eq, List.nil_append]
  simp [subscriptGet, List.getElem?_eq_getElem h]

/-! ### The decimal rendering of an `int` -/

theorem ite_ne_of {p : Prop} [Decidable p] {a b c : Char} (ha : a ≠ c) (hb : b ≠ c) :
    (if p then a else b) ≠ c := by
  by_cases hp : p
  · rw [if_pos hp]; exact ha
  · rw [if_neg hp]; exact hb

theorem digitChar_ne_newline (k : Nat) : Nat.digitChar k ≠ '\n' := by
  unfold Nat.digitChar
  repeat' apply ite_ne_of
  all_goals decide

theorem digitChar_ne_minus (k : Nat) : Nat.digitChar k ≠ '-' := by
  unfold Nat.digitChar
  repeat' apply ite_ne_of
  all_goals decide

theorem digitChar_value (d : Nat) (h : d < 10) : (Nat.digitChar d).toNat - '0'.toNat = d := by
  interval_cases d <;> rfl

theorem foldl_value_append (a : Nat) (l : List Char) (c : Char) :
    (l ++ [c]).foldl (fun acc c => 10 * acc + (c.toNat - '0'.toNat)) a
      = 10 * l.foldl (fun acc c => 10 * acc + (c.toNat - '0'.toNat)) a
          + (c.toNat - '0'.toNat) := by
  simp [List.foldl_append]

/-- With enough fuel, `Nat.toDigitsCore 10` puts in front of `ds` a non-empty run of
digit characters whose value is `n`. -/
theorem toDigitsCore_spec (fuel : Nat) : ∀ (n : Nat) (ds : List Char), n < fuel →
    ∃ l : List Char, Nat.toDigitsCore 10 fuel n ds = l ++ ds ∧ l ≠ [] ∧
      (∀ c ∈ l, ∃ k, c = Nat.digitChar k) ∧
      ∀ a, l.foldl (fun acc c => 10 * acc + (c.toNat - '0'.toNat)) a
        = a * 10 ^ l.length + n := by
  induction fuel with
  | zero => intro n ds h; omega
  | succ f ih =>
    intro n ds h
    simp only [Nat.toDigitsCore]
    split_ifs with h0
    · refine ⟨[Nat.digitChar (n % 10)], by simp, by simp, ?_, ?_⟩
      · intro c hc
        exact ⟨n % 10, by simpa using hc⟩
      · intro a
        have hn : n < 10 := by omega
        rw [Nat.mod_eq_of_lt hn, List.foldl_cons, List.foldl_nil, digitChar_value n hn]
        simp only [List.length_singleton, pow_one]
        omega
    · have hlt : n / 10 < f := by omega
      obtain ⟨l, hl, _, hmem, hval⟩ := ih (n / 10) (Nat.digitChar (n % 10) :: ds) hlt
      refine ⟨l ++ [Nat.digitChar (n % 10)], by simp [hl], by simp, ?_, ?_⟩
      · intro c hc
        rcases List.mem_append.mp hc with hc | hc
        · exact hmem c hc
        · exact ⟨n % 10, by simpa using hc⟩
      · intro a
        rw [foldl_value_append, hval, digitChar_value (n % 10) (Nat.mod_lt _ (by decide))]
        simp only [List.length_append, List.length_singleton, pow_succ]
        nlinarith [Nat.div_add_mod n 10]

theorem toDigits_spec (n : Nat) :
    Nat.toDigits 10 n ≠ [] ∧ (∀ c ∈ Nat.toDigits 10 n, ∃ k, c = Nat.digitChar k) ∧
      digitsValue (Nat.toDigits 10 n) = n := by
  obtain ⟨l, hl, hne, hmem, hval⟩ := toDigitsCore_spec (n + 1) n [] (Nat.lt_succ_self n)
  simp only [List.append_nil] at hl
  simp only [Nat.toDigits, hl]
  exact ⟨hne, hmem, by simpa [digitsValue] using hval 0⟩

/-- The text `os << n` writes for an `int` is a decimal numeral denoting `n`. -/
theorem decimalValue_toString (n : Int) : decimalValue (toString n) = n := by
  cases n with
  | ofNat m =>
    obtain ⟨_, hmem, hval⟩ := toDigits_spec m
    have hdata : (toString (Int.ofNat m)).data = Nat.toDigits 10 m := rfl
    have hhead : (Nat.toDigits 10 m).head? ≠ some '-' := by
      intro hh
      obtain ⟨k, hk⟩ := hmem '-' (List.mem_of_mem_head? hh)
      exact digitChar_ne_minus k hk.symm
    unfold decimalValue
    rw [hdata, if_neg hhead, hval]
    rfl
  | negSucc m =>
    obtain ⟨_, _, hval⟩ := toDigits_spec (m + 1)
    have hdata : (toString (Int.negSucc m)).data = '-' :: Nat.toDigits 10 (m + 1) := rfl
    unfold decimalValue
    rw [hdata, List.head?_cons, if_pos rfl, List.tail_cons, hval]
    rfl

theorem isLine_natRepr (n : Nat) : isLine (Nat.repr n) := by
  intro hmem
  obtain ⟨k, hk⟩ := (toDigits_spec n).2.1 '\n' hmem
  exact digitChar_ne_newline k hk.symm

theorem isLine_append {a b : String} (ha : isLine a) (hb : isLine b) : isLine (a ++ b) := by
  simp only [isLine, String.data_append, List.mem_append, not_or] at *
  exact ⟨ha, hb⟩

theorem isLine_toString_int (n : Int) : isLine (toString n) := by
  cases n with
  | ofNat m => exact isLine_natRepr m
  | negSucc m => exact isLine_append (by decide) (isLine_natRepr (m + 1))

/-! ## The claims -/

set_option maxRecDepth 100000

/-- C1: the text written by `display` of a `StringInstrument` built from
`(name, material, stringCount)` is appended to the stream and contains the label
"String Instrument", the name, the material and the rendering of the count, which is
a decimal numeral denoting the count. -/
theorem string_display_contains (name material : String) (stringCount : Int)
    (os : OStream) :
    (StringInstrument.new name material stringCount).display os
        = os ++ written (StringInstrument.new name material stringCount).display ∧
      occursIn "String Instrument" (written (StringInstrument.new name material stringCount).display) ∧
      occursIn name (written (StringInstrument.new name material stringCount).display) ∧
      occursIn material (written (StringInstrument.new name material stringCount).display) ∧
      occursIn (toString stringCount)
        (written (StringInstrument.new name material stringCount).display) ∧
      decimalValue (toString stringCount) = stringCount := by
  refine ⟨?_, ?_, ?_, ?_, ?_, decimalValue_toString stringCount⟩
  · simp [written, string_display_eq]
  all_goals rw [written_string]
  all_goals simp only [StringInstrument.new, MusicalInstrument.new]
  · exact ⟨[], (": " ++ name ++ "\nMaterial: " ++ material ++ "\nNumber of strings: "
      ++ toString stringCount ++ "\n").data, by simp⟩
  · exact ⟨"String Instrument: ".data, ("\nMaterial: " ++ material ++ "\nNumber of strings: "
      ++ toString stringCount ++ "\n").data, by simp⟩
  · exact ⟨("String Instrument: " ++ name ++ "\nMaterial: ").data, ("\nNumber of strings: "
      ++ toString stringCount ++ "\n").data, by simp⟩
  · exact ⟨("String Instrument: " ++ name ++ "\nMaterial: " ++ material
      ++ "\nNumber of strings: ").data, "\n".data, by simp⟩

/-- C2: the text written by `display` of a `BrassInstrument` built from
`(name, material, brassType)` is appended to the stream and contains the label
"Brass Instrument", the name, the material and the brass type verbatim. -/
theorem brass_display_contains (name material brassType : String) (os : OStream) :
    (BrassInstrument.new name material brassType).display os
        = os ++ written (BrassInstrument.new name material brassType).display ∧
      occursIn "Brass Instrument" (written (BrassInstrument.new name material brassType).display) ∧
      occursIn name (written (BrassInstrument.new name material brassType).display) ∧
      occursIn material (written (BrassInstrument.new name material brassType).display) ∧
      occursIn brassType (written (BrassInstrument.new name material brassType).display) := by
  refine ⟨?_, ?_, ?_, ?_, ?_⟩
  · simp [written, brass_display_eq]
  all_goals rw [written_brass]
  all_goals simp only [BrassInstrument.new, MusicalInstrument.new]
  · exact ⟨[], (": " ++ name ++ "\nMaterial: " ++ material ++ "\nBrass type: "
      ++ brassType ++ "\n").data, by simp⟩
  · exact ⟨"Brass Instrument: ".data, ("\nMaterial: " ++ material ++ "\nBrass type: "
      ++ brassType ++ "\n").data, by simp⟩
  · exact ⟨("Brass Instrument: " ++ name ++ "\nMaterial: ").data, ("\nBrass type: "
      ++ brassType ++ "\n").data, by simp⟩
  · exact ⟨("Brass Instrument: " ++ name ++ "\nMaterial: " ++ material
      ++ "\nBrass type: ").data, "\n".data, by simp⟩

/-- C3: `modifyInstrument` applied to a pointer to a `StringInstrument` leaves the stream
exactly as that instrument's own `display` does, and likewise for a `BrassInstrument`;
in both cases this is also what the virtual call through the base pointer writes. -/
theorem modifyInstrument_known (s : StringInstrument) (b : BrassInstrument) (os : OStream) :
    modifyInstrument (some (.string s)) os = s.display os ∧
      modifyInstrument (some (.brass b)) os = b.display os ∧
      modifyInstrument (some (.string s)) os = (Instrument.string s).display os ∧
      modifyInstrument (some (.brass b)) os = (Instrument.brass b).display os :=
  ⟨rfl, rfl, rfl, rfl⟩

/-- C4: on a pointer that is neither to a `StringInstrument` nor to a `BrassInstrument`
(so: null, or to a plain `MusicalInstrument`), `modifyInstrument` returns the stream
extended by exactly "Unknown instrument type." and a newline; for a plain base object
this differs from what its default `display` writes. -/
theorem modifyInstrument_unknown (p : Option Instrument) (os : OStream)
    (hs : ∀ s, p ≠ some (.string s)) (hb : ∀ b, p ≠ some (.brass b)) :
    modifyInstrument p os = os ++ "Unknown instrument type.\n" ∧
      (p = none ∨ ∃ m, p = some (.base m)) ∧
      ∀ m, p = some (.base m) → modifyInstrument p os ≠ m.display os := by
  have hp : p = none ∨ ∃ m, p = some (.base m) := by
    match p, hs, hb with
    | none, _, _ => exact Or.inl rfl
    | some (.base m), _, _ => exact Or.inr ⟨m, rfl⟩
    | some (.string s), hs, _ => exact absurd rfl (hs s)
    | some (.brass b), _, hb => exact absurd rfl (hb b)
  have hout : modifyInstrument p os = os ++ "Unknown instrument type.\n" := by
    rcases hp with rfl | ⟨m, rfl⟩ <;> rfl
  refine ⟨hout, hp, ?_⟩
  intro m _ heq
  rw [hout, base_display_eq] at heq
  have hdata := congrArg String.data heq
  simp only [String.data_append, List.append_cancel_left_eq] at hdata
  have hhead := congrArg List.head? hdata
  simp at hhead

/-- Witness of C4: the null pointer and a pointer to a plain base object. -/
theorem modifyInstrument_unknown_witness :
    modifyInstrument none "" = "Unknown instrument type.\n" ∧
      modifyInstrument (some (.base (MusicalInstrument.new "Drum" "Leather"))) ""
        = "Unknown instrument type.\n" ∧
      modifyInstrument (some (.base (MusicalInstrument.new "Drum" "Leather"))) ""
        ≠ (MusicalInstrument.new "Drum" "Leather").display "" :=
  ⟨(modifyInstrument_unknown none "" (fun _ h => by cases h) (fun _ h => by cases h)).1,
   (modifyInstrument_unknown (some (.base (MusicalInstrument.new "Drum" "Leather"))) ""
      (fun _ h => by cases h) (fun _ h => by cases h)).1,
   (modifyInstrument_unknown (some (.base (MusicalInstrument.new "Drum" "Leather"))) ""
      (fun _ h => by cases h) (fun _ h => by cases h)).2.2 _ rfl⟩

/-- C10: `display` of a plain `MusicalInstrument` built from `(name, material)` appends
exactly "Instrument: ", the name, a newline, "Material: ", the material and a newline. -/
theorem base_display_default (name material : String) (os : OStream) :
    (MusicalInstrument.new name material).display os
        = os ++ ("Instrument: " ++ name ++ "\nMaterial: " ++ material ++ "\n") ∧
      written (Instrument.base (MusicalInstrument.new name material)).display
        = "Instrument: " ++ name ++ "\nMaterial: " ++ material ++ "\n" := by
  constructor
  · rw [base_display_eq]; rfl
  · simp [written, Instrument.display, base_display_eq, MusicalInstrument.new]

/-- C5: after appending any sequence of instruments to the empty vector, the loop of
`main` writes, in append order, each instrument's description followed by one more
newline; for three instruments `a`, `b`, `c` appended in that order this is the
description of `a`, then of `b`, then of `c`. -/
theorem traverse_appendAll (xs : List Instrument) (a b c : Instrument) (os : OStream) :
    traverse (appendAll [] xs) os
        = os ++ String.join (xs.map fun i => written i.display ++ "\n") ∧
      traverse (push_back (push_back (push_back [] a) b) c) os
        = os ++ (written a.display ++ "\n" ++ (written b.display ++ "\n")
            ++ (written c.display ++ "\n")) := by
  constructor
  · rw [appendAll_eq, List.nil_append, traverse_eq]
  · rw [traverse_eq]
    simp [push_back, join_cons_eq, String.join, String.append_assoc]

/-- C7: `main` terminates with exit code 0 and has written the blocks of Guitar, Violin,
Trumpet and Trombone, each followed by an empty line, and then once more the Guitar
block, which is the Guitar's own description, without an empty line after it. -/
theorem main_output (os : OStream) :
    main os = some
      (os ++ ("String Instrument: Guitar\nMaterial: Wood\nNumber of strings: 6\n" ++ "\n"
          ++ "String Instrument: Violin\nMaterial: Wood\nNumber of strings: 4\n" ++ "\n"
          ++ "Brass Instrument: Trumpet\nMaterial: Brass\nBrass type: Yellow Brass\n" ++ "\n"
          ++ "Brass Instrument: Trombone\nMaterial: Brass\nBrass type: Red Brass\n" ++ "\n"
          ++ "String Instrument: Guitar\nMaterial: Wood\nNumber of strings: 6\n"), 0) ∧
      written (StringInstrument.new "Guitar" "Wood" 6).display
        = "String Instrument: Guitar\nMaterial: Wood\nNumber of strings: 6\n" := by
  constructor
  · have hget : subscriptGet
        (push_back (push_back (push_back (push_back []
          (.string (StringInstrument.new "Guitar" "Wood" 6)))
          (.string (StringInstrument.new "Violin" "Wood" 4)))
          (.brass (BrassInstrument.new "Trumpet" "Brass" "Yellow Brass")))
          (.brass (BrassInstrument.new "Trombone" "Brass" "Red Brass"))) 0
        = Access.element (some (.string (StringInstrument.new "Guitar" "Wood" 6))) := by
      decide
    simp only [main, hget, traverse_eq, modifyInstrument, dynamicCastString,
      string_display_eq]
    simp only [push_back, List.nil_append, List.cons_append, List.map_cons, List.map_nil,
      join_cons_eq, String.join, List.foldl_nil, written, Instrument.display,
      string_display_eq, brass_display_eq, String.append_assoc,
      String.empty_append, String.append_empty]
    have h6 : toString (6 : Int) = "6" := by decide
    have h4 : toString (4 : Int) = "4" := by decide
    simp only [StringInstrument.new, BrassInstrument.new, MusicalInstrument.new, h6, h4]
    congr 3
  · decide

/-- C8: the block the loop of `main` writes for a `StringInstrument` or a
`BrassInstrument` whose text fields contain no newline consists of exactly four
newline-terminated lines: the kind label, a colon and the name; "Material: " and the
material; the extra label ("Number of strings" or "Brass type"), a colon and the extra
value; and an empty line. -/
theorem loopBody_layout (s : StringInstrument) (b : BrassInstrument) (os : OStream)
    (hsn : isLine s.name) (hsm : isLine s.material)
    (hbn : isLine b.name) (hbm : isLine b.material) (hbt : isLine b.brassType) :
    (loopBody os (.string s)
        = os ++ fourLines ("String Instrument: " ++ s.name) ("Material: " ++ s.material)
            ("Number of strings: " ++ toString s.stringCount) "" ∧
      isLine ("String Instrument: " ++ s.name) ∧ isLine ("Material: " ++ s.material) ∧
      isLine ("Number of strings: " ++ toString s.stringCount)) ∧
    (loopBody os (.brass b)
        = os ++ fourLines ("Brass Instrument: " ++ b.name) ("Material: " ++ b.material)
            ("Brass type: " ++ b.brassType) "" ∧
      isLine ("Brass Instrument: " ++ b.name) ∧ isLine ("Material: " ++ b.material) ∧
      isLine ("Brass type: " ++ b.brassType)) ∧
    isLine "" := by
  refine ⟨⟨?_, ?_, ?_, ?_⟩, ⟨?_, ?_, ?_, ?_⟩, by decide⟩
  · simp only [loopBody, Instrument.display, string_display_eq, OStream.endl,
      fourLines, String.append_assoc, String.empty_append]
    rfl
  · exact isLine_append (by decide) hsn
  · exact isLine_append (by decide) hsm
  · exact isLine_append (by decide) (isLine_toString_int _)
  · simp only [loopBody, Instrument.display, brass_display_eq, OStream.endl,
      fourLines, String.append_assoc, String.empty_append]
    rfl
  · exact isLine_append (by decide) hbn
  · exact isLine_append (by decide) hbm
  · exact isLine_append (by decide) hbt

/-- Witness of C8: the Violin and the Trumpet of `main`. -/
theorem loopBody_layout_witness :
    loopBody "" (.string (StringInstrument.new "Violin" "Wood" 4))
        = "String Instrument: Violin\nMaterial: Wood\nNumber of strings: 4\n\n" ∧
      loopBody "" (.brass (BrassInstrument.new "Trumpet" "Brass" "Yellow Brass"))
        = "Brass Instrument: Trumpet\nMaterial: Brass\nBrass type: Yellow Brass\n\n" := by
  have h := loopBody_layout (StringInstrument.new "Violin" "Wood" 4)
    (BrassInstrument.new "Trumpet" "Brass" "Yellow Brass") ""
    (by decide) (by decide) (by decide) (by decide) (by decide)
  exact ⟨h.1.1.trans (by decide), h.2.1.1.trans (by decide)⟩

/-- Counterexample to C9 as stated: the constructor accepts the `int` value -1 and the
constructed instrument stores it, a negative string count. -/
theorem string_new_negative :
    isInt (-1) ∧ (StringInstrument.new "Guitar" "Wood" (-1)).stringCount = -1 ∧
      ¬ 0 ≤ (StringInstrument.new "Guitar" "Wood" (-1)).stringCount := by
  decide

/-- C9, amended: the constructor stores the `int` it is given unchanged, whatever its
sign, together with the name and the material; so the stored count stays in the range
of `int` and is non-negative exactly when the argument is. -/
theorem string_new_stores (name material : String) (stringCount : Int)
    (h : isInt stringCount) :
    (StringInstrument.new name material stringCount).stringCount = stringCount ∧
      (StringInstrument.new name material stringCount).name = name ∧
      (StringInstrument.new name material stringCount).material = material ∧
      isInt (StringInstrument.new name material stringCount).stringCount ∧
      (0 ≤ (StringInstrument.new name material stringCount).stringCount ↔ 0 ≤ stringCount) :=
  ⟨rfl, rfl, rfl, h, Iff.rfl⟩

/-- Witness of amended C9 at the least `int`. -/
theorem string_new_stores_witness :
    isInt INT_MIN ∧ (StringInstrument.new "Harp" "Wood" INT_MIN).stringCount = INT_MIN :=
  ⟨by decide, (string_new_stores "Harp" "Wood" INT_MIN (by decide)).1⟩

end Rk2
